import Mathlib

/-!
Verification development for the Local Mapping subsystem of SD-SLAM
(file src/LocalMapping.cc). The definitions below are a shallow embedding
of the data model and operations of that file; machine floats are modelled
as exact rationals, entity state as explicit records, and the loop control
flow as functions of the boolean readings the code makes.
-/

/-! ## Control surface state (LocalMapping flags and queue) -/

/-- State of the LocalMapping controller: the stop flags guarded by
mMutexStop, the finish flag guarded by mMutexFinish, and the incoming
keyframe queue mlNewKeyFrames (keyframes as ids). -/
structure LMState where
  stopped : Bool
  stopRequested : Bool
  notStop : Bool
  finished : Bool
  newKeyFrames : List Nat
deriving DecidableEq, Repr

/-- LocalMapping::Stop - if a stop was requested and the not-stop veto is
clear, set mbStopped and return true; otherwise return false. -/
def lmStop (s : LMState) : LMState × Bool :=
  if s.stopRequested && !s.notStop then ({ s with stopped := true }, true)
  else (s, false)

/-- LocalMapping::SetNotStop - refuse (return false, no change) when asked
to set the veto while already stopped; otherwise store the flag and
return true. -/
def lmSetNotStop (s : LMState) (flag : Bool) : LMState × Bool :=
  if flag && s.stopped then (s, false)
  else ({ s with notStop := flag }, true)

/-- LocalMapping::Release - a no-op when finished; otherwise clear the
stopped and stop-requested flags and empty the keyframe queue. -/
def lmRelease (s : LMState) : LMState :=
  if s.finished then s
  else { s with stopped := false, stopRequested := false, newKeyFrames := [] }

/-- LocalMapping::SetFinish - set mbFinished and mbStopped. -/
def lmSetFinish (s : LMState) : LMState :=
  { s with finished := true, stopped := true }

/-! ## One iteration of LocalMapping::Run

The loop body reads CheckNewKeyFrames() three times (top of the loop,
before SearchInNeighbors, before Local BA) and stopRequested() once;
because the tracker may enqueue concurrently, the three queue readings are
independent observations. One iteration is a function of those readings,
of the map size, and of whether a loop closer is attached. -/

/-- The boolean readings one iteration of LocalMapping::Run makes:
q1, q2, q3 are the results of the three CheckNewKeyFrames() calls,
stopReq the result of stopRequested(), nKFs the result of
Map::KeyFramesInMap(), and hasLoopCloser whether mpLoopCloser is set. -/
structure IterObs where
  q1 : Bool
  q2 : Bool
  q3 : Bool
  stopReq : Bool
  nKFs : Nat
  hasLoopCloser : Bool
deriving DecidableEq, Repr

/-- Which pipeline stages one iteration of LocalMapping::Run executes. -/
structure IterFlags where
  processed : Bool
  fusionRun : Bool
  baRun : Bool
  kfCullingRun : Bool
  handoff : Bool
deriving DecidableEq, Repr

/-- Stage selection of one iteration of LocalMapping::Run: when a keyframe
is waiting it is processed and culled, fusion runs unless a new keyframe
arrived meanwhile, Local BA runs only when additionally no stop is
requested and the map holds more than two keyframes, keyframe culling runs
under the same queue and stop conditions, and the keyframe is handed to
the loop closer when one is attached. -/
def runIteration (o : IterObs) : IterFlags :=
  if o.q1 then
    { processed := true
      fusionRun := !o.q2
      baRun := !o.q3 && !o.stopReq && decide (2 < o.nKFs)
      kfCullingRun := !o.q3 && !o.stopReq
      handoff := o.hasLoopCloser }
  else
    { processed := false, fusionRun := false, baRun := false,
      kfCullingRun := false, handoff := false }

/-! ## Map-point culling (LocalMapping::MapPointCulling) -/

/-- The state of a MapPoint read by MapPointCulling: the bad flag, the
found ratio (GetFoundRatio, modelled as an exact rational), the number of
observations (Observations) and the id of the first observing keyframe
(mnFirstKFid). -/
structure CullPoint where
  bad : Bool
  foundFrac : ℚ
  nObs : Nat
  firstKFid : Nat
deriving DecidableEq, Repr

/-- The observation-count threshold of MapPointCulling: 2 when monocular,
3 otherwise. -/
def cnThObs (mono : Bool) : Nat := if mono then 2 else 3

/-- What MapPointCulling does with one point of the recent-added list. -/
inductive CullOutcome where
  | dropBadPoint
  | markBadAndDrop
  | graduate
  | keep
deriving DecidableEq, Repr

/-- The decision sequence of the MapPointCulling loop body for one point,
with N the current keyframe id: already-bad points are dropped from the
list; then a found ratio below 0.25 marks the point bad; then age at least
2 keyframes with at most cnThObs observations marks it bad; then age at
least 3 graduates it (dropped from the list, kept alive); otherwise it
stays on the list. Ages are computed as int differences, as in the code. -/
def cullStep (mono : Bool) (N : Nat) (p : CullPoint) : CullOutcome :=
  if p.bad then .dropBadPoint
  else if p.foundFrac < 1/4 then .markBadAndDrop
  else if 2 ≤ (N : ℤ) - (p.firstKFid : ℤ) ∧ p.nObs ≤ cnThObs mono then .markBadAndDrop
  else if 3 ≤ (N : ℤ) - (p.firstKFid : ℤ) then .graduate
  else .keep

/-- The whole MapPointCulling walk: first component the points remaining
on the recent-added list, second component the points newly marked bad by
SetBadFlag. -/
def mapPointCulling (mono : Bool) (N : Nat) : List CullPoint → List CullPoint × List CullPoint
  | [] => ([], [])
  | p :: rest =>
      let r := mapPointCulling mono N rest
      match cullStep mono N p with
      | .keep => (p :: r.1, r.2)
      | .markBadAndDrop => (r.1, p :: r.2)
      | _ => r

/-! ## Reprojection gating in LocalMapping::CreateNewMapPoints

Lines 336-381 of LocalMapping.cc: a triangulated candidate point is
projected into each of the two views; in a monocular view the candidate is
discarded when errX^2+errY^2 exceeds 5.991 times the level variance of
the feature octave, and in a stereo view when
errX^2+errY^2+errXr^2 exceeds 7.8 times that variance. -/

/-- The per-view data the reprojection gate reads: whether the view has a
stereo right coordinate (mvuRight value nonnegative), the intrinsics and
stereo offset of the view, the measured keypoint position (px, py), the
measured right u-coordinate pur, and the level variance sigma2 of the
feature octave in this view. -/
structure ViewGate where
  stereo : Bool
  fx : ℚ
  fy : ℚ
  cx : ℚ
  cy : ℚ
  bf : ℚ
  px : ℚ
  py : ℚ
  pur : ℚ
  sigma2 : ℚ
deriving DecidableEq, Repr

/-- The reprojection rejection test of CreateNewMapPoints for one view,
on a candidate with camera coordinates (x, y, z) in that view: true
exactly when the code executes continue for this view. -/
def reprojRejected (v : ViewGate) (x y z : ℚ) : Bool :=
  let invz := 1/z
  let u := v.fx * x * invz + v.cx
  let w := v.fy * y * invz + v.cy
  let eX := u - v.px
  let eY := w - v.py
  if v.stereo then
    let ur := u - v.bf * invz
    let eXr := ur - v.pur
    decide ((78 : ℚ)/10 * v.sigma2 < eX^2 + eY^2 + eXr^2)
  else
    decide ((5991 : ℚ)/1000 * v.sigma2 < eX^2 + eY^2)

/-- The combined two-view reprojection gate: the candidate survives lines
336-381 exactly when neither view rejects it. -/
def candidateReprojOk (v1 v2 : ViewGate) (x1 y1 z1 x2 y2 z2 : ℚ) : Bool :=
  !reprojRejected v1 x1 y1 z1 && !reprojRejected v2 x2 y2 z2

/-- Modelled from the spec: the per-view rejection test as the spec
states it, with threshold 7.815 (instead of the code's 7.8) on the
three-residual stereo error; used only to compare spec and code. -/
def reprojRejectedSpec (v : ViewGate) (x y z : ℚ) : Bool :=
  let invz := 1/z
  let u := v.fx * x * invz + v.cx
  let w := v.fy * y * invz + v.cy
  let eX := u - v.px
  let eY := w - v.py
  if v.stereo then
    let ur := u - v.bf * invz
    let eXr := ur - v.pur
    decide ((7815 : ℚ)/1000 * v.sigma2 < eX^2 + eY^2 + eXr^2)
  else
    decide ((5991 : ℚ)/1000 * v.sigma2 < eX^2 + eY^2)

/-! ## Stereo parallax cosine selection in CreateNewMapPoints

Lines 284-293 of LocalMapping.cc. Both candidate slots start at
cosParallaxRays+1; the first is overwritten with the stereo cosine of view
1 when view 1 is stereo, and only OTHERWISE (else if) the second is
overwritten with the stereo cosine of view 2; cosParallaxStereo is the
minimum of the two slots. The trigonometric values
cos(2*atan2(mb/2, depth)) are taken as inputs s1 and s2. -/

/-- The first slot, cosParallaxStereo1: the view-1 stereo cosine when view
1 is stereo, else cosParallaxRays+1. -/
def cosParStereo1 (bS1 : Bool) (rays s1 : ℚ) : ℚ :=
  if bS1 then s1 else rays + 1

/-- The second slot, cosParallaxStereo2: the view-2 stereo cosine when
view 1 is NOT stereo and view 2 is, else cosParallaxRays+1 (the else-if
in the code skips it whenever view 1 is stereo). -/
def cosParStereo2 (bS1 bS2 : Bool) (rays s2 : ℚ) : ℚ :=
  if !bS1 && bS2 then s2 else rays + 1

/-- cosParallaxStereo as computed by the code: the minimum of the two
slots. -/
def cosParStereo (bS1 bS2 : Bool) (rays s1 s2 : ℚ) : ℚ :=
  min (cosParStereo1 bS1 rays s1) (cosParStereo2 bS1 bS2 rays s2)

/-- Modelled from the spec: cosParallaxStereo as the spec states it, the
minimum over the stereo cosines that are available (both when both views
are stereo); used only to compare spec and code. -/
def cosParStereoSpec (bS1 bS2 : Bool) (rays s1 s2 : ℚ) : ℚ :=
  if bS1 && bS2 then min s1 s2
  else if bS1 then s1
  else if bS2 then s2
  else rays + 1

/-! ## Queue polling of the triangulation and fusion passes (C6)

CreateNewMapPoints checks CheckNewKeyFrames() at the top of each outer
iteration after the first (line 220: if i > 0 and a keyframe waits,
return). SearchInNeighbors contains no CheckNewKeyFrames call at all; its
loops over target keyframes run to completion. Neighbors are abstracted
to their ids; checks is the queue-nonempty reading the code would make at
outer index i. -/

/-- The suffix walk of the CreateNewMapPoints outer loop starting at index
i: stop before a neighbor of positive index when a keyframe waits. -/
def triangGo (checks : Nat → Bool) : Nat → List Nat → List Nat
  | _, [] => []
  | i, k :: rest =>
      if 0 < i ∧ checks i = true then []
      else k :: triangGo checks (i + 1) rest

/-- The neighbors the CreateNewMapPoints outer loop actually processes. -/
def triangProcessed (checks : Nat → Bool) (nbrs : List Nat) : List Nat :=
  triangGo checks 0 nbrs

/-- The target keyframes the forward-fuse loop of SearchInNeighbors
processes: all of them, independently of the queue (the loop body at
lines 450-454 contains no CheckNewKeyFrames call). The checks argument
records the queue readings the pass would be able to make; the code never
makes them. -/
def fuseForwardProcessed (_checks : Nat → Bool) (targets : List Nat) : List Nat :=
  targets

/-- Modelled from the spec: the neighbors a pass processes according to
the claim, which says both passes poll the queue once per neighbor
keyframe between outer iterations and return early; used only to compare
spec and code. -/
def specPassProcessed (checks : Nat → Bool) (nbrs : List Nat) : List Nat :=
  triangGo checks 0 nbrs

/-! ## Keyframe culling (LocalMapping::KeyFrameCulling)

Lines 580-634 of LocalMapping.cc. For a covisible neighbor K of the
current keyframe the code walks the map-point slots of K; in stereo/RGB-D
mode a slot is skipped when its stored depth exceeds mThDepth or is
negative; a counted point is redundant when it has more than 3
observations and at least 3 observers other than K see it at octave at
most the slot octave plus 1; K is marked bad when the redundant count
strictly exceeds 90 percent of the counted total and K is not the root
keyframe (id 0). Observation entries carry the observing keyframe id and
the octave of that keyframe's keypoint at the observed slot. -/

/-- One observation entry of a map point as KeyFrameCulling reads it:
the observing keyframe id and the octave of that keyframe's undistorted
keypoint at the stored slot index. -/
structure ObsEntry where
  kf : Nat
  octave : Nat
deriving DecidableEq, Repr

/-- A map point as KeyFrameCulling reads it: bad flag and observation
list (GetObservations; one entry per observing keyframe). -/
structure CPoint where
  bad : Bool
  obs : List ObsEntry
deriving DecidableEq, Repr

/-- One map-point slot of the examined keyframe: the point stored there
(if any), the stored per-feature depth mvDepth, and the octave of the
undistorted keypoint at this slot. -/
structure CSlot where
  pt : Option CPoint
  depth : ℚ
  octave : Nat
deriving DecidableEq, Repr

/-- The examined keyframe: id, close-depth threshold mThDepth, and its
map-point slots. -/
structure CKeyFrame where
  id : Nat
  thDepth : ℚ
  slots : List CSlot
deriving DecidableEq, Repr

/-- The redundancy test of KeyFrameCulling for a point at slot octave
octv of keyframe kid: more than thObs = 3 observations in total, and at
least 3 observation entries from keyframes other than kid with octave at
most octv+1 (the code breaks out of counting at 3, which leaves the
predicate unchanged). -/
def redundantCode (kid : Nat) (octv : Nat) (p : CPoint) : Bool :=
  decide (3 < p.obs.length) &&
  decide (3 ≤ (p.obs.filter (fun e => e.kf ≠ kid ∧ e.octave ≤ octv + 1)).length)

/-- The redundancy test as the claim words it: at least 3 keyframes other
than K observe the point at octave at most o+1 (no total-count
prefilter). -/
def redundantSpec (kid : Nat) (octv : Nat) (p : CPoint) : Bool :=
  decide (3 ≤ (p.obs.filter (fun e => e.kf ≠ kid ∧ e.octave ≤ octv + 1)).length)

/-- Whether a slot of K contributes to the counted total nMPs: it must
hold a non-bad point, and in stereo/RGB-D mode (mono = false) the code
skips the slot when its depth exceeds K.thDepth or is negative. -/
def countedSlot (mono : Bool) (K : CKeyFrame) (s : CSlot) : Bool :=
  match s.pt with
  | none => false
  | some p => !p.bad && (mono || !(decide (K.thDepth < s.depth) || decide (s.depth < 0)))

/-- Whether a slot of K contributes to the redundant count
nRedundantObservations. -/
def redundantSlot (mono : Bool) (K : CKeyFrame) (s : CSlot) : Bool :=
  countedSlot mono K s &&
  (match s.pt with
   | none => false
   | some p => redundantCode K.id s.octave p)

/-- nMPs of KeyFrameCulling for keyframe K. -/
def nMPsOf (mono : Bool) (K : CKeyFrame) : Nat :=
  (K.slots.filter (countedSlot mono K)).length

/-- nRedundantObservations of KeyFrameCulling for keyframe K. -/
def nRedOf (mono : Bool) (K : CKeyFrame) : Nat :=
  (K.slots.filter (redundantSlot mono K)).length

/-- The spec-worded redundant count, using redundantSpec in place of
redundantCode. -/
def nRedSpecOf (mono : Bool) (K : CKeyFrame) : Nat :=
  (K.slots.filter (fun s => countedSlot mono K s &&
    (match s.pt with
     | none => false
     | some p => redundantSpec K.id s.octave p))).length

/-- The culling decision of KeyFrameCulling for one covisible neighbor K:
K is marked bad exactly when it is not the root keyframe and the
redundant count strictly exceeds 90 percent of the counted total (the
double comparison nRed > 0.9*nMPs agrees with the exact rational one on
every count representable by the code's int counters). -/
def kfCulled (mono : Bool) (K : CKeyFrame) : Bool :=
  decide (K.id ≠ 0) && decide (9 * nMPsOf mono K < 10 * nRedOf mono K)

/-- Modelled from the spec: whether a slot is ignored according to the
claim, which says points with non-positive depth or depth above the
threshold are ignored in stereo/RGB-D mode; used only to compare spec and
code. -/
def specIgnoredSlot (K : CKeyFrame) (s : CSlot) : Bool :=
  decide (s.depth ≤ 0) || decide (K.thDepth < s.depth)

/-! ## Observation symmetry state (C1)

MapPoint::AddObservation, MapPoint::IsInKeyFrame and
KeyFrame::AddMapPoint are declared outside this repository slice; they
are modelled from the spec: observations are a map from keyframe to slot
index, unique per keyframe, and a keyframe holds a slot-indexed
association to map points. Keyframe ids and point ids are naturals; a
slot holds at most one point id. -/

/-- The observation-graph state: keyframe slots (keyframe id, slot index
to stored point), point observations (point id, keyframe id to slot
index) and the per-point bad flag. -/
structure MapState where
  slot : Nat → Nat → Option Nat
  obs : Nat → Nat → Option Nat
  bad : Nat → Bool

/-- Modelled from the spec: MapPoint::AddObservation(pKF, idx) - record
slot i for keyframe k in the observations of point p. -/
def addObservation (st : MapState) (p k i : Nat) : MapState :=
  { st with obs := fun q c => if q = p ∧ c = k then some i else st.obs q c }

/-- Modelled from the spec: KeyFrame::AddMapPoint(pMP, idx) - store point
p in slot i of keyframe k. -/
def addMapPoint (st : MapState) (k i p : Nat) : MapState :=
  { st with slot := fun c j => if c = k ∧ j = i then some p else st.slot c j }

/-- The registration sequence of a successful triangulation in
CreateNewMapPoints (lines 402-408): AddObservation in both keyframes,
then AddMapPoint in both keyframes, for the fresh point p at slots i1 of
k1 (the current keyframe) and i2 of k2 (the neighbor). -/
def registerNewPoint (st : MapState) (p k1 i1 k2 i2 : Nat) : MapState :=
  addMapPoint (addMapPoint (addObservation (addObservation st p k1 i1) p k2 i2) k1 i1 p) k2 i2 p

/-- One slot step of the ProcessNewKeyFrame association loop (lines
139-152): slot i of keyframe K holding a non-bad point p gets the
point-side observation (K, i) added when p does not yet observe K
(IsInKeyFrame false); otherwise the state is unchanged (the real code
then queues the point for vetting, which does not touch the graph). -/
def processSlot (K : Nat) (st : MapState) (i : Nat) : MapState :=
  match st.slot K i with
  | none => st
  | some p =>
      if st.bad p then st
      else
        match st.obs p K with
        | some _ => st
        | none => addObservation st p K i

/-- The ProcessNewKeyFrame association loop over the slot indices of the
new keyframe K. -/
def processNewKF (st : MapState) (K : Nat) (idxs : List Nat) : MapState :=
  idxs.foldl (processSlot K) st

/-- Observation symmetry (spec invariant 1): every observation of a
non-bad point is mirrored in the keyframe slot, and every slot holding a
non-bad point is mirrored in that point's observations. -/
def SymmetricState (st : MapState) : Prop :=
  (∀ p k i, st.bad p = false → st.obs p k = some i → st.slot k i = some p) ∧
  (∀ k i p, st.slot k i = some p → st.bad p = false → st.obs p k = some i)

/-- A freshly constructed MapPoint: not bad, observed nowhere, stored in
no keyframe slot. -/
def FreshPoint (st : MapState) (p : Nat) : Prop :=
  st.bad p = false ∧ (∀ k, st.obs p k = none) ∧ (∀ k i, st.slot k i ≠ some p)

/-- The state a tracker-built keyframe K arrives in at ProcessNewKeyFrame:
observation-to-slot symmetry holds globally, slot-to-observation symmetry
holds away from K, every slot of K holding a non-bad point either is not
yet observed (a tracking match) or observes K exactly at that slot (a
fresh stereo point), and no non-bad point occupies two slots of K. -/
def KFArrival (st : MapState) (K : Nat) : Prop :=
  (∀ p k i, st.bad p = false → st.obs p k = some i → st.slot k i = some p) ∧
  (∀ k i p, k ≠ K → st.slot k i = some p → st.bad p = false → st.obs p k = some i) ∧
  (∀ i p, st.slot K i = some p → st.bad p = false →
      st.obs p K = none ∨ st.obs p K = some i) ∧
  (∀ i j p, st.slot K i = some p → st.slot K j = some p → st.bad p = false → i = j)

/-- The empty observation graph. -/
def emptyMapState : MapState :=
  { slot := fun _ _ => none, obs := fun _ _ => none, bad := fun _ => false }

/-- Slot i of keyframe K has its point-side observation in place: any
non-bad point stored there observes K at exactly slot i. -/
def DoneAt (st : MapState) (K i : Nat) : Prop :=
  ∀ p, st.slot K i = some p → st.bad p = false → st.obs p K = some i

/-! # Theorems -/

/-- Claim C5: per loop iteration, Local BA on the current keyframe runs
iff a keyframe was dequeued, the queue is empty at the Local BA check, no
stop has been requested, and the map holds strictly more than two
keyframes; whenever KeyFramesInMap() is at most 2, Local BA is skipped. -/
theorem localBA_gating (o : IterObs) :
    ((runIteration o).baRun = true ↔
      (o.q1 = true ∧ o.q3 = false ∧ o.stopReq = false ∧ 2 < o.nKFs)) ∧
    (o.nKFs ≤ 2 → (runIteration o).baRun = false) := by
  obtain ⟨q1, q2, q3, stopReq, nKFs, hlc⟩ := o
  cases q1 <;> cases q3 <;> cases stopReq <;>
    simp [runIteration]

/-- Witness for localBA_gating at a concrete iteration with a two-keyframe
map. -/
theorem localBA_gating_witness :
    2 ≤ 2 ∧ (runIteration ⟨true, false, false, false, 2, false⟩).baRun = false :=
  ⟨by decide, (localBA_gating ⟨true, false, false, false, 2, false⟩).2 (by decide)⟩

/-- Claim C9: Stop() sets the stopped flag and returns true iff a stop was
requested and the not-stop veto is clear, and otherwise changes nothing
and returns false; SetNotStop(true) fails (returns false, no change) iff
already stopped, and in every other case SetNotStop stores the flag and
returns true. -/
theorem stop_setNotStop_contract (s : LMState) (flag : Bool) :
    ((lmStop s).2 = true ↔ (s.stopRequested = true ∧ s.notStop = false)) ∧
    ((lmStop s).2 = true → (lmStop s).1 = { s with stopped := true }) ∧
    ((lmStop s).2 = false → (lmStop s).1 = s) ∧
    ((lmSetNotStop s true).2 = false ↔ s.stopped = true) ∧
    ((lmSetNotStop s true).2 = false → (lmSetNotStop s true).1 = s) ∧
    (¬(flag = true ∧ s.stopped = true) →
      lmSetNotStop s flag = ({ s with notStop := flag }, true)) := by
  obtain ⟨stopped, stopRequested, notStop, finished, kfs⟩ := s
  cases stopped <;> cases stopRequested <;> cases notStop <;> cases flag <;>
    simp [lmStop, lmSetNotStop]

/-- Witness for stop_setNotStop_contract on a state with a pending stop
request. -/
theorem stop_setNotStop_contract_witness :
    (lmStop ⟨false, true, false, false, []⟩).2 = true ∧
    (lmStop ⟨false, true, false, false, []⟩).1 = ⟨true, true, false, false, []⟩ ∧
    lmSetNotStop ⟨false, true, false, false, []⟩ true = (⟨false, true, true, false, []⟩, true) :=
  ⟨by decide,
   (stop_setNotStop_contract ⟨false, true, false, false, []⟩ true).2.1 (by decide),
   (stop_setNotStop_contract ⟨false, true, false, false, []⟩ true).2.2.2.2.2 (by decide)⟩

/-- Claim C10: after SetFinish (which sets the finished and stopped
flags), Release is the identity on the state; when not finished, Release
clears the stopped flag, the stop-requested flag and the keyframe
queue. -/
theorem release_after_finish (s : LMState) :
    lmRelease (lmSetFinish s) = lmSetFinish s ∧
    (lmSetFinish s).finished = true ∧
    (lmSetFinish s).stopped = true ∧
    (s.finished = false →
      lmRelease s = { s with stopped := false, stopRequested := false, newKeyFrames := [] }) := by
  refine ⟨?_, rfl, rfl, ?_⟩
  · simp [lmRelease, lmSetFinish]
  · intro h
    simp [lmRelease, h]

/-- Witness for release_after_finish on a stopped, unfinished state with a
pending keyframe. -/
theorem release_after_finish_witness :
    lmRelease (lmSetFinish ⟨true, true, false, false, [7]⟩) =
      lmSetFinish ⟨true, true, false, false, [7]⟩ ∧
    lmRelease ⟨true, true, false, false, [7]⟩ = ⟨false, false, false, false, []⟩ :=
  ⟨(release_after_finish ⟨true, true, false, false, [7]⟩).1,
   (release_after_finish ⟨true, true, false, false, [7]⟩).2.2.2 (by decide)⟩

/-- Claim C2: the MapPointCulling walk keeps exactly the points whose
decision is keep and marks bad exactly those whose decision is
markBadAndDrop; the decision is markBadAndDrop iff the point is not
already bad and either its found ratio is below 0.25 or it is at least 2
keyframes old with at most cnThObs observations; it is keep iff none of
the removal rules fire; already-bad points are dropped; age at least 3
graduates survivors; and a point with found ratio exactly 0.25 is never
culled by the ratio rule. -/
theorem mapPointCulling_spec (mono : Bool) (N : Nat) (l : List CullPoint) (p : CullPoint) :
    ((mapPointCulling mono N l).1 =
      l.filter (fun q => decide (cullStep mono N q = .keep))) ∧
    ((mapPointCulling mono N l).2 =
      l.filter (fun q => decide (cullStep mono N q = .markBadAndDrop))) ∧
    (cullStep mono N p = .markBadAndDrop ↔
      p.bad = false ∧ (p.foundFrac < 1/4 ∨
        (2 ≤ (N : ℤ) - (p.firstKFid : ℤ) ∧ p.nObs ≤ cnThObs mono))) ∧
    (cullStep mono N p = .keep ↔
      p.bad = false ∧ (1 : ℚ)/4 ≤ p.foundFrac ∧
      ¬(2 ≤ (N : ℤ) - (p.firstKFid : ℤ) ∧ p.nObs ≤ cnThObs mono) ∧
      (N : ℤ) - (p.firstKFid : ℤ) < 3) ∧
    (cullStep mono N p = .dropBadPoint ↔ p.bad = true) ∧
    (cullStep mono N p = .graduate ↔
      p.bad = false ∧ (1 : ℚ)/4 ≤ p.foundFrac ∧
      ¬(2 ≤ (N : ℤ) - (p.firstKFid : ℤ) ∧ p.nObs ≤ cnThObs mono) ∧
      3 ≤ (N : ℤ) - (p.firstKFid : ℤ)) ∧
    (p.foundFrac = 1/4 → p.bad = false →
      ¬(2 ≤ (N : ℤ) - (p.firstKFid : ℤ) ∧ p.nObs ≤ cnThObs mono) →
      cullStep mono N p ≠ .markBadAndDrop) := by
  have hstep : ∀ q : CullPoint,
      (cullStep mono N q = .markBadAndDrop ↔
        q.bad = false ∧ (q.foundFrac < 1/4 ∨
          (2 ≤ (N : ℤ) - (q.firstKFid : ℤ) ∧ q.nObs ≤ cnThObs mono))) ∧
      (cullStep mono N q = .keep ↔
        q.bad = false ∧ (1 : ℚ)/4 ≤ q.foundFrac ∧
        ¬(2 ≤ (N : ℤ) - (q.firstKFid : ℤ) ∧ q.nObs ≤ cnThObs mono) ∧
        (N : ℤ) - (q.firstKFid : ℤ) < 3) ∧
      (cullStep mono N q = .dropBadPoint ↔ q.bad = true) ∧
      (cullStep mono N q = .graduate ↔
        q.bad = false ∧ (1 : ℚ)/4 ≤ q.foundFrac ∧
        ¬(2 ≤ (N : ℤ) - (q.firstKFid : ℤ) ∧ q.nObs ≤ cnThObs mono) ∧
        3 ≤ (N : ℤ) - (q.firstKFid : ℤ)) := by
    intro q
    unfold cullStep
    split_ifs with h1 h2 h3 h4 <;> simp_all [not_lt, not_le]
  have hfil : ∀ l2 : List CullPoint,
      (mapPointCulling mono N l2).1 =
        l2.filter (fun q => decide (cullStep mono N q = .keep)) ∧
      (mapPointCulling mono N l2).2 =
        l2.filter (fun q => decide (cullStep mono N q = .markBadAndDrop)) := by
    intro l2
    induction l2 with
    | nil => simp [mapPointCulling]
    | cons q rest ih =>
      obtain ⟨ih1, ih2⟩ := ih
      cases hc : cullStep mono N q <;>
        simp [mapPointCulling, hc, ih1, ih2, List.filter_cons]
  refine ⟨(hfil l).1, (hfil l).2, (hstep p).1, (hstep p).2.1, (hstep p).2.2.1,
    (hstep p).2.2.2, ?_⟩
  intro hf hb hA hcontra
  rw [(hstep p).1] at hcontra
  rcases hcontra with ⟨-, h | h⟩
  · rw [hf] at h
    exact lt_irrefl _ h
  · exact hA h

/-- Witness for mapPointCulling_spec: a three-keyframe-old point with
found ratio exactly 0.25 and four observations is graduated, not marked
bad. -/
theorem mapPointCulling_spec_witness :
    cullStep false 5 ⟨false, 1/4, 4, 0⟩ ≠ CullOutcome.markBadAndDrop :=
  (mapPointCulling_spec false 5 [] ⟨false, 1/4, 4, 0⟩).2.2.2.2.2.2
    rfl rfl (by decide)

/-- Counterexample to claim C3 as stated: in a stereo view with unit
variance, a candidate with squared three-residual error 7.812025 is
rejected by the code (threshold 7.8) although the error does not exceed
the claimed threshold 7.815. -/
theorem reproj_threshold_counterexample :
    reprojRejected ⟨true, 1, 1, 0, 0, 0, 0, 0, 559/200, 1⟩ (559/200) 0 1 = true ∧
    reprojRejectedSpec ⟨true, 1, 1, 0, 0, 0, 0, 0, 559/200, 1⟩ (559/200) 0 1 = false := by
  constructor <;> norm_num [reprojRejected, reprojRejectedSpec]

/-- Claim C3 amended: a candidate view rejects exactly when the squared
reprojection error exceeds 5.991 times the octave variance for a
monocular (two-residual) view and 7.8 times it (not 7.815) when the
stereo right coordinate adds a third residual; the candidate survives the
gate iff neither view rejects. -/
theorem reproj_gate_amended (v : ViewGate) (x y z : ℚ)
    (v1 v2 : ViewGate) (x1 y1 z1 x2 y2 z2 : ℚ) :
    (v.stereo = true →
      (reprojRejected v x y z = true ↔
        (78 : ℚ)/10 * v.sigma2 <
          (v.fx * x * (1/z) + v.cx - v.px)^2 + (v.fy * y * (1/z) + v.cy - v.py)^2 +
          (v.fx * x * (1/z) + v.cx - v.bf * (1/z) - v.pur)^2)) ∧
    (v.stereo = false →
      (reprojRejected v x y z = true ↔
        (5991 : ℚ)/1000 * v.sigma2 <
          (v.fx * x * (1/z) + v.cx - v.px)^2 + (v.fy * y * (1/z) + v.cy - v.py)^2)) ∧
    (candidateReprojOk v1 v2 x1 y1 z1 x2 y2 z2 = true ↔
      reprojRejected v1 x1 y1 z1 = false ∧ reprojRejected v2 x2 y2 z2 = false) := by
  refine ⟨?_, ?_, ?_⟩
  · intro hs
    simp [reprojRejected, hs]
  · intro hs
    simp [reprojRejected, hs]
  · simp [candidateReprojOk]

/-- Witness for reproj_gate_amended on a concrete stereo view and a
concrete monocular view. -/
theorem reproj_gate_amended_witness :
    (reprojRejected ⟨true, 1, 1, 0, 0, 0, 0, 0, 0, 1⟩ 1 0 1 = true ↔
      (78 : ℚ)/10 * 1 <
        (1 * 1 * (1/1) + 0 - 0)^2 + (1 * 0 * (1/1) + 0 - 0)^2 +
        (1 * 1 * (1/1) + 0 - 0 * (1/1) - 0)^2) ∧
    (reprojRejected ⟨false, 1, 1, 0, 0, 0, 0, 0, 0, 1⟩ 1 0 1 = true ↔
      (5991 : ℚ)/1000 * 1 <
        (1 * 1 * (1/1) + 0 - 0)^2 + (1 * 0 * (1/1) + 0 - 0)^2) :=
  ⟨(reproj_gate_amended ⟨true, 1, 1, 0, 0, 0, 0, 0, 0, 1⟩ 1 0 1
      ⟨true, 1, 1, 0, 0, 0, 0, 0, 0, 1⟩ ⟨true, 1, 1, 0, 0, 0, 0, 0, 0, 1⟩
      1 0 1 1 0 1).1 rfl,
   (reproj_gate_amended ⟨false, 1, 1, 0, 0, 0, 0, 0, 0, 1⟩ 1 0 1
      ⟨true, 1, 1, 0, 0, 0, 0, 0, 0, 1⟩ ⟨true, 1, 1, 0, 0, 0, 0, 0, 0, 1⟩
      1 0 1 1 0 1).2.1 rfl⟩

/-- Counterexample to claim C8 as stated: with both views stereo, ray
cosine 0, view-1 stereo cosine 1/2 and view-2 stereo cosine 1/4, the code
yields 1/2 (the else-if never computes the view-2 cosine), not the
minimum 1/4 of the two stereo cosines the claim demands. -/
theorem cosParStereo_counterexample :
    cosParStereo true true 0 (1/2) (1/4) = 1/2 ∧
    cosParStereoSpec true true 0 (1/2) (1/4) = 1/4 ∧
    cosParStereo true true 0 (1/2) (1/4) ≠ cosParStereoSpec true true 0 (1/2) (1/4) := by
  refine ⟨?_, ?_, ?_⟩ <;>
    norm_num [cosParStereo, cosParStereo1, cosParStereo2, cosParStereoSpec]

/-- Claim C8 amended: the view-2 stereo cosine is only computed when view
1 is not stereo (the code uses else-if); cosParallaxStereo is
min(cosParallaxStereo1, cosParallaxStereo2) of the two slots initialized
to cosParallaxRays+1, so with view 1 stereo it is min(s1, rays+1)
regardless of view 2, with only view 2 stereo it is min(rays+1, s2), and
with neither it is rays+1. -/
theorem cosParStereo_amended (bS1 bS2 : Bool) (rays s1 s2 : ℚ) :
    (bS1 = true → cosParStereo bS1 bS2 rays s1 s2 = min s1 (rays + 1)) ∧
    (bS1 = false → bS2 = true → cosParStereo bS1 bS2 rays s1 s2 = min (rays + 1) s2) ∧
    (bS1 = false → bS2 = false → cosParStereo bS1 bS2 rays s1 s2 = rays + 1) := by
  cases bS1 <;> cases bS2 <;>
    simp [cosParStereo, cosParStereo1, cosParStereo2]

/-- Witness for cosParStereo_amended on concrete stereo configurations. -/
theorem cosParStereo_amended_witness :
    cosParStereo true true 0 (1/2) (1/4) = min ((1 : ℚ)/2) (0 + 1) ∧
    cosParStereo false true 0 (1/2) (1/4) = min ((0 : ℚ) + 1) (1/4) ∧
    cosParStereo false false 0 (1/2) (1/4) = (0 : ℚ) + 1 :=
  ⟨(cosParStereo_amended true true 0 (1/2) (1/4)).1 rfl,
   (cosParStereo_amended false true 0 (1/2) (1/4)).2.1 rfl rfl,
   (cosParStereo_amended false false 0 (1/2) (1/4)).2.2 rfl rfl⟩

/-- Counterexample to claim C7 as stated: in stereo mode a slot holding a
non-bad point with stored depth exactly 0 has non-positive depth, so the
claim says it is ignored, yet the code counts it (the filter only skips
depth strictly below 0 or above the threshold). -/
theorem closePoint_counterexample :
    countedSlot false ⟨1, 1, [⟨some ⟨false, []⟩, 0, 0⟩]⟩ ⟨some ⟨false, []⟩, 0, 0⟩ = true ∧
    specIgnoredSlot ⟨1, 1, [⟨some ⟨false, []⟩, 0, 0⟩]⟩ ⟨some ⟨false, []⟩, 0, 0⟩ = true ∧
    nMPsOf false ⟨1, 1, [⟨some ⟨false, []⟩, 0, 0⟩]⟩ = 1 := by
  refine ⟨?_, ?_, ?_⟩ <;> decide

/-- Claim C7 amended: in the stereo/RGB-D configuration KeyFrameCulling
counts a slot iff it holds a non-bad point whose stored depth is
nonnegative and at most the close-depth threshold; a slot with strictly
negative depth or depth above the threshold contributes to neither the
counted total nor the redundant count. -/
theorem closePointFilter_amended (K : CKeyFrame) (s : CSlot) (p : CPoint)
    (l1 l2 : List CSlot) :
    (s.pt = some p →
      (countedSlot false K s = true ↔
        p.bad = false ∧ 0 ≤ s.depth ∧ s.depth ≤ K.thDepth)) ∧
    (s.pt = none → countedSlot false K s = false) ∧
    (s.depth < 0 ∨ K.thDepth < s.depth →
      nMPsOf false { K with slots := l1 ++ s :: l2 } =
        nMPsOf false { K with slots := l1 ++ l2 } ∧
      nRedOf false { K with slots := l1 ++ s :: l2 } =
        nRedOf false { K with slots := l1 ++ l2 }) := by
  have hnot : (s.depth < 0 ∨ K.thDepth < s.depth) → countedSlot false K s = false := by
    intro h
    unfold countedSlot
    cases hp : s.pt with
    | none => rfl
    | some q =>
      rcases h with h | h <;> simp [h]
  refine ⟨?_, ?_, ?_⟩
  · intro hp
    unfold countedSlot
    rw [hp]
    cases hbad : p.bad <;> simp [hbad, not_lt, and_comm]
  · intro hp
    unfold countedSlot
    rw [hp]
  · intro h
    have hc : countedSlot false K s = false := hnot h
    have hsR : redundantSlot false K s = false := by
      simp [redundantSlot, hc]
    have hKc : ∀ l : List CSlot,
        countedSlot false { K with slots := l } = countedSlot false K :=
      fun _ => rfl
    have hKr : ∀ l : List CSlot,
        redundantSlot false { K with slots := l } = redundantSlot false K :=
      fun _ => rfl
    constructor
    · unfold nMPsOf
      simp only [hKc]
      simp [List.filter_append, List.filter_cons, hc]
    · unfold nRedOf
      simp only [hKr]
      simp [List.filter_append, List.filter_cons, hsR]

/-- Witness for closePointFilter_amended on a concrete keyframe: a
non-bad point at depth 1/2 under threshold 1 is counted, and a depth -1
slot contributes nothing to the counted total. -/
theorem closePointFilter_amended_witness :
    (countedSlot false ⟨1, 1, []⟩ ⟨some ⟨false, []⟩, 1/2, 0⟩ = true ↔
      (false = false ∧ (0 : ℚ) ≤ 1/2 ∧ (1 : ℚ)/2 ≤ 1)) ∧
    nMPsOf false ⟨1, 1, [⟨some ⟨false, []⟩, -1, 0⟩]⟩ = nMPsOf false ⟨1, 1, []⟩ :=
  ⟨(closePointFilter_amended ⟨1, 1, []⟩ ⟨some ⟨false, []⟩, 1/2, 0⟩ ⟨false, []⟩ [] []).1 rfl,
   ((closePointFilter_amended ⟨1, 1, []⟩ ⟨some ⟨false, []⟩, -1, 0⟩ ⟨false, []⟩ [] []).2.2
     (Or.inl (by norm_num))).1⟩

/-- The CreateNewMapPoints outer walk processes everything when no queue
check (after the first neighbor) fires. -/
theorem triangGo_all (checks : Nat → Bool) (h : ∀ j, 0 < j → checks j = false) :
    ∀ (nbrs : List Nat) (k : Nat), triangGo checks k nbrs = nbrs := by
  intro nbrs
  induction nbrs with
  | nil => intro k; rfl
  | cons a rest ih =>
    intro k
    unfold triangGo
    rcases Nat.eq_zero_or_pos k with hk | hk
    · subst hk
      simp [ih]
    · simp [h k hk, ih, Nat.not_eq_zero_of_lt hk]

/-- The CreateNewMapPoints outer walk starting at index k stops exactly
at the first positive index whose queue check fires. -/
theorem triangGo_take (checks : Nat → Bool) (i : Nat) (hi : 0 < i)
    (hci : checks i = true) (hlow : ∀ j, 0 < j → j < i → checks j = false) :
    ∀ (nbrs : List Nat) (k : Nat), k ≤ i → triangGo checks k nbrs = nbrs.take (i - k) := by
  intro nbrs
  induction nbrs with
  | nil => intro k _; simp [triangGo]
  | cons a rest ih =>
    intro k hk
    unfold triangGo
    rcases Nat.lt_or_ge k i with hlt | hge
    · have hcond : ¬(0 < k ∧ checks k = true) := by
        rintro ⟨hk0, hkc⟩
        rw [hlow k hk0 hlt] at hkc
        exact Bool.false_ne_true hkc
      rw [if_neg hcond]
      have htk : i - k = (i - (k + 1)) + 1 := by omega
      rw [ih (k + 1) hlt, htk]
      rfl
    · have hki : k = i := le_antisymm hk hge
      subst hki
      rw [if_pos ⟨hi, hci⟩]
      simp

/-- Counterexample to claim C6 as stated: with a keyframe waiting at
every check, the forward-fuse loop of SearchInNeighbors still processes
both of its target keyframes (the code contains no queue check), while
the behavior the claim describes would stop after the first. -/
theorem fusePolling_counterexample :
    fuseForwardProcessed (fun _ => true) [10, 20] = [10, 20] ∧
    specPassProcessed (fun _ => true) [10, 20] = [10] ∧
    fuseForwardProcessed (fun _ => true) [10, 20] ≠
      specPassProcessed (fun _ => true) [10, 20] := by
  refine ⟨rfl, ?_, ?_⟩ <;> decide

/-- Claim C6 amended: the triangulation pass checks the keyframe queue
once per neighbor after the first and returns early when a keyframe
waits - it processes all neighbors when no check fires and exactly the
first i neighbors when the check at outer index i is the first to fire;
the fusion pass of SearchInNeighbors performs no queue check and always
processes all its targets (it is only gated once, before invocation, by
the Run loop). -/
theorem pass_queue_polling (checks : Nat → Bool) (nbrs ts : List Nat) (i : Nat) :
    ((∀ j, 0 < j → checks j = false) → triangProcessed checks nbrs = nbrs) ∧
    (0 < i → checks i = true → (∀ j, 0 < j → j < i → checks j = false) →
      triangProcessed checks nbrs = nbrs.take i) ∧
    (fuseForwardProcessed checks ts = ts) := by
  refine ⟨?_, ?_, rfl⟩
  · intro h
    exact triangGo_all checks h nbrs 0
  · intro hi hci hlow
    have := triangGo_take checks i hi hci hlow nbrs 0 (Nat.zero_le i)
    simpa using this

/-- Witness for pass_queue_polling: with the queue filling at outer index
1, triangulation processes only the first of three neighbors, while
fusion processes all targets. -/
theorem pass_queue_polling_witness :
    triangProcessed (fun j => decide (j = 1)) [5, 6, 7] = [5] ∧
    triangProcessed (fun _ => false) [5, 6, 7] = [5, 6, 7] ∧
    fuseForwardProcessed (fun j => decide (j = 1)) [5, 6, 7] = [5, 6, 7] :=
  ⟨(pass_queue_polling (fun j => decide (j = 1)) [5, 6, 7] [] 1).2.1
      (by decide) (by decide) (fun j hj hlt => by omega),
   (pass_queue_polling (fun _ => false) [5, 6, 7] [] 1).1 (fun j _ => rfl),
   (pass_queue_polling (fun j => decide (j = 1)) [] [5, 6, 7] 1).2.2⟩

/-- A list containing an element its filter drops is strictly longer than
its filter. -/
theorem length_filter_lt_of_mem_not {α : Type} (p : α → Bool) :
    ∀ (l : List α) (x : α), x ∈ l → p x = false → (l.filter p).length < l.length := by
  intro l
  induction l with
  | nil => intro x hx _; cases hx
  | cons a rest ih =>
    intro x hx hpx
    rcases List.mem_cons.mp hx with rfl | hmem
    · rw [List.filter_cons, hpx]
      simp only [List.length_cons]
      exact Nat.lt_succ_of_le (List.length_filter_le p rest)
    · rw [List.filter_cons]
      cases hpa : p a
      · simp only [List.length_cons]
        exact Nat.lt_succ_of_lt (ih x hmem hpx)
      · simp only [List.length_cons]
        exact Nat.succ_lt_succ (ih x hmem hpx)

/-- Under an observation entry for kid itself, the code redundancy test
(with its total-observation prefilter) agrees with the spec-worded one. -/
theorem redundantCode_eq_spec (kid octv : Nat) (p : CPoint)
    (h : ∃ e ∈ p.obs, e.kf = kid) :
    redundantCode kid octv p = redundantSpec kid octv p := by
  obtain ⟨e0, he0, hkf⟩ := h
  unfold redundantCode redundantSpec
  rw [← Bool.decide_and, decide_eq_decide]
  constructor
  · rintro ⟨-, h2⟩
    exact h2
  · intro h2
    refine ⟨?_, h2⟩
    have hdrop : (fun e : ObsEntry => decide (e.kf ≠ kid ∧ e.octave ≤ octv + 1)) e0 = false := by
      simp [hkf]
    exact lt_of_le_of_lt h2 (length_filter_lt_of_mem_not _ p.obs e0 he0 hdrop)

/-- Claim C4: given observation symmetry for the examined keyframe K (a
non-bad point stored in a slot of K carries an observation entry for K),
KeyFrameCulling marks K bad exactly when K is not the root keyframe and
strictly more than 90 percent of its counted map points have at least 3
observers other than K at octave at most the slot octave plus 1; the root
keyframe is never culled. -/
theorem keyFrameCulling_decision (mono : Bool) (K : CKeyFrame)
    (hsym : ∀ s ∈ K.slots, ∀ p : CPoint, s.pt = some p → p.bad = false →
      ∃ e ∈ p.obs, e.kf = K.id) :
    (kfCulled mono K = true ↔
      K.id ≠ 0 ∧ 9 * nMPsOf mono K < 10 * nRedSpecOf mono K) ∧
    (K.id = 0 → kfCulled mono K = false) := by
  have hred : nRedOf mono K = nRedSpecOf mono K := by
    unfold nRedOf nRedSpecOf
    congr 1
    apply List.filter_congr
    intro s hs
    unfold redundantSlot
    cases hcs : countedSlot mono K s
    · rfl
    · cases hp : s.pt with
      | none => rfl
      | some p =>
        have hbad : p.bad = false := by
          unfold countedSlot at hcs
          rw [hp] at hcs
          have h1 := ((Bool.and_eq_true _ _).mp hcs).1
          simpa using h1
        show (true && redundantCode K.id s.octave p) =
          (true && redundantSpec K.id s.octave p)
        rw [redundantCode_eq_spec K.id s.octave p (hsym s hs p hp hbad)]
  constructor
  · unfold kfCulled
    rw [hred]
    simp
  · intro h0
    unfold kfCulled
    simp [h0]

/-- Witness for keyFrameCulling_decision: a non-root keyframe whose only
counted point is seen by three other keyframes at the same octave is
culled. -/
theorem keyFrameCulling_decision_witness :
    kfCulled true ⟨1, 1, [⟨some ⟨false, [⟨1, 0⟩, ⟨2, 0⟩, ⟨3, 0⟩, ⟨4, 0⟩]⟩, 1/2, 0⟩]⟩ = true := by
  have h := keyFrameCulling_decision true
      ⟨1, 1, [⟨some ⟨false, [⟨1, 0⟩, ⟨2, 0⟩, ⟨3, 0⟩, ⟨4, 0⟩]⟩, 1/2, 0⟩]⟩ ?_
  · exact h.1.mpr (by decide)
  · intro s hs p hp hb
    have hs1 : s = ⟨some ⟨false, [⟨1, 0⟩, ⟨2, 0⟩, ⟨3, 0⟩, ⟨4, 0⟩]⟩, 1/2, 0⟩ := by
      simpa using hs
    subst hs1
    have hp1 : p = ⟨false, [⟨1, 0⟩, ⟨2, 0⟩, ⟨3, 0⟩, ⟨4, 0⟩]⟩ := by
      simpa using hp.symm
    subst hp1
    decide

/-- The keyframe-slot side of the triangulation registration sequence. -/
theorem registerNewPoint_slot_eq (st : MapState) (p k1 i1 k2 i2 c j : Nat) :
    (registerNewPoint st p k1 i1 k2 i2).slot c j =
      if c = k2 ∧ j = i2 then some p
      else if c = k1 ∧ j = i1 then some p
      else st.slot c j := by
  simp [registerNewPoint, addMapPoint, addObservation]

/-- The point-observation side of the triangulation registration
sequence. -/
theorem registerNewPoint_obs_eq (st : MapState) (p k1 i1 k2 i2 q c : Nat) :
    (registerNewPoint st p k1 i1 k2 i2).obs q c =
      if q = p ∧ c = k2 then some i2
      else if q = p ∧ c = k1 then some i1
      else st.obs q c := by
  simp [registerNewPoint, addMapPoint, addObservation]

/-- The registration sequence leaves all bad flags unchanged. -/
theorem registerNewPoint_bad_eq (st : MapState) (p k1 i1 k2 i2 : Nat) :
    (registerNewPoint st p k1 i1 k2 i2).bad = st.bad :=
  rfl

/-- Registering a fresh triangulated point in two empty slots of two
distinct keyframes preserves observation symmetry and leaves the point
registered on both sides in both keyframes. -/
theorem registerNewPoint_symmetric (st : MapState) (p k1 i1 k2 i2 : Nat)
    (hsym : SymmetricState st) (hfresh : FreshPoint st p) (hne : k1 ≠ k2)
    (he1 : st.slot k1 i1 = none) (he2 : st.slot k2 i2 = none) :
    SymmetricState (registerNewPoint st p k1 i1 k2 i2) ∧
    (registerNewPoint st p k1 i1 k2 i2).slot k1 i1 = some p ∧
    (registerNewPoint st p k1 i1 k2 i2).slot k2 i2 = some p ∧
    (registerNewPoint st p k1 i1 k2 i2).obs p k1 = some i1 ∧
    (registerNewPoint st p k1 i1 k2 i2).obs p k2 = some i2 := by
  obtain ⟨hsym1, hsym2⟩ := hsym
  obtain ⟨hpbad, hpobs, hpslot⟩ := hfresh
  refine ⟨⟨?_, ?_⟩, ?_, ?_, ?_, ?_⟩
  · intro q c i hbad hobs
    rw [registerNewPoint_bad_eq] at hbad
    rw [registerNewPoint_obs_eq] at hobs
    rw [registerNewPoint_slot_eq]
    by_cases hq : q = p
    · subst hq
      by_cases hc2 : c = k2
      · subst hc2
        rw [if_pos ⟨rfl, rfl⟩] at hobs
        obtain rfl : i = i2 := by
          injection hobs with h
          exact h.symm
        rw [if_pos ⟨rfl, rfl⟩]
      · rw [if_neg (fun h => hc2 h.2)] at hobs
        by_cases hc1 : c = k1
        · subst hc1
          rw [if_pos ⟨rfl, rfl⟩] at hobs
          obtain rfl : i = i1 := by
            injection hobs with h
            exact h.symm
          rw [if_neg (fun h => hne h.1), if_pos ⟨rfl, rfl⟩]
        · rw [if_neg (fun h => hc1 h.2), hpobs c] at hobs
          simp at hobs
    · rw [if_neg (fun h => hq h.1), if_neg (fun h => hq h.1)] at hobs
      have hst := hsym1 q c i hbad hobs
      by_cases hA : c = k2 ∧ i = i2
      · obtain ⟨rfl, rfl⟩ := hA
        rw [he2] at hst
        simp at hst
      · rw [if_neg hA]
        by_cases hB : c = k1 ∧ i = i1
        · obtain ⟨rfl, rfl⟩ := hB
          rw [he1] at hst
          simp at hst
        · rw [if_neg hB]
          exact hst
  · intro c j q hslot hbad
    rw [registerNewPoint_slot_eq] at hslot
    rw [registerNewPoint_bad_eq] at hbad
    rw [registerNewPoint_obs_eq]
    by_cases hA : c = k2 ∧ j = i2
    · obtain ⟨rfl, rfl⟩ := hA
      rw [if_pos ⟨rfl, rfl⟩] at hslot
      obtain rfl : p = q := by
        injection hslot
      rw [if_pos ⟨rfl, rfl⟩]
    · rw [if_neg hA] at hslot
      by_cases hB : c = k1 ∧ j = i1
      · obtain ⟨rfl, rfl⟩ := hB
        rw [if_pos ⟨rfl, rfl⟩] at hslot
        obtain rfl : p = q := by
          injection hslot
        rw [if_neg (fun h => hne h.2), if_pos ⟨rfl, rfl⟩]
      · rw [if_neg hB] at hslot
        have hqp : q ≠ p := fun h => hpslot c j (h ▸ hslot)
        rw [if_neg (fun h => hqp h.1), if_neg (fun h => hqp h.1)]
        exact hsym2 c j q hslot hbad
  · rw [registerNewPoint_slot_eq, if_neg (fun h => hne h.1), if_pos ⟨rfl, rfl⟩]
  · rw [registerNewPoint_slot_eq, if_pos ⟨rfl, rfl⟩]
  · rw [registerNewPoint_obs_eq, if_neg (fun h => hne h.2), if_pos ⟨rfl, rfl⟩]
  · rw [registerNewPoint_obs_eq, if_pos ⟨rfl, rfl⟩]

/-- One slot step of the ProcessNewKeyFrame loop preserves the arrival
precondition, never touches slots or bad flags, installs the point-side
observation for its slot, and keeps every already-installed slot
installed. -/
theorem processSlot_step (K : Nat) (st : MapState) (i : Nat) (h : KFArrival st K) :
    KFArrival (processSlot K st i) K ∧
    (processSlot K st i).slot = st.slot ∧
    (processSlot K st i).bad = st.bad ∧
    DoneAt (processSlot K st i) K i ∧
    (∀ j, DoneAt st K j → DoneAt (processSlot K st i) K j) := by
  obtain ⟨hdir1, hdir2, hrelax, hnodup⟩ := h
  cases hcase : st.slot K i with
  | none =>
    have heq : processSlot K st i = st := by
      simp [processSlot, hcase]
    rw [heq]
    refine ⟨⟨hdir1, hdir2, hrelax, hnodup⟩, rfl, rfl, ?_, fun j hj => hj⟩
    intro q hq
    rw [hcase] at hq
    simp at hq
  | some p =>
    cases hb : st.bad p with
    | true =>
      have heq : processSlot K st i = st := by
        simp [processSlot, hcase, hb]
      rw [heq]
      refine ⟨⟨hdir1, hdir2, hrelax, hnodup⟩, rfl, rfl, ?_, fun j hj => hj⟩
      intro q hq hqb
      rw [hcase] at hq
      obtain rfl : p = q := by
        injection hq
      rw [hb] at hqb
      simp at hqb
    | false =>
      cases ho : st.obs p K with
      | some j0 =>
        have heq : processSlot K st i = st := by
          simp [processSlot, hcase, hb, ho]
        rw [heq]
        refine ⟨⟨hdir1, hdir2, hrelax, hnodup⟩, rfl, rfl, ?_, fun j hj => hj⟩
        intro q hq hqb
        rw [hcase] at hq
        obtain rfl : p = q := by
          injection hq
        rcases hrelax i p hcase hb with hn | hi
        · rw [hn] at ho
          simp at ho
        · exact hi
      | none =>
        have heq : processSlot K st i = addObservation st p K i := by
          simp [processSlot, hcase, hb, ho]
        rw [heq]
        have hobs : ∀ q c, (addObservation st p K i).obs q c =
            if q = p ∧ c = K then some i else st.obs q c := by
          intro q c
          simp [addObservation]
        refine ⟨⟨?_, ?_, ?_, hnodup⟩, rfl, rfl, ?_, ?_⟩
        · intro q c m hqb hqo
          rw [hobs] at hqo
          by_cases hA : q = p ∧ c = K
          · obtain ⟨rfl, rfl⟩ := hA
            rw [if_pos ⟨rfl, rfl⟩] at hqo
            obtain rfl : m = i := by
              injection hqo with hmi
              exact hmi.symm
            exact hcase
          · rw [if_neg hA] at hqo
            exact hdir1 q c m hqb hqo
        · intro k j q hk hq hqb
          rw [hobs, if_neg (fun hA => hk hA.2)]
          exact hdir2 k j q hk hq hqb
        · intro j q hq hqb
          have hq0 : st.slot K j = some q := hq
          have hqb0 : st.bad q = false := hqb
          rw [hobs]
          by_cases hqp : q = p
          · subst hqp
            rw [if_pos ⟨rfl, rfl⟩]
            right
            have hij : i = j := hnodup i j q hcase hq0 hqb0
            rw [hij]
          · rw [if_neg (fun hA => hqp hA.1)]
            exact hrelax j q hq0 hqb0
        · intro q hq hqb
          have hq0 : st.slot K i = some q := hq
          rw [hcase] at hq0
          obtain rfl : p = q := by
            injection hq0
          rw [hobs, if_pos ⟨rfl, rfl⟩]
        · intro j hj q hq hqb
          have hq0 : st.slot K j = some q := hq
          have hqb0 : st.bad q = false := hqb
          rw [hobs]
          by_cases hqp : q = p
          · subst hqp
            rw [if_pos ⟨rfl, rfl⟩]
            have hij : i = j := hnodup i j q hcase hq0 hqb0
            rw [hij]
          · rw [if_neg (fun hA => hqp hA.1)]
            exact hj q hq0 hqb0

/-- The ProcessNewKeyFrame loop over any index list preserves the arrival
precondition, never touches slots or bad flags, and installs the
point-side observation for every processed slot. -/
theorem processNewKF_fold (K : Nat) (idxs : List Nat) :
    ∀ st : MapState, KFArrival st K →
      KFArrival (processNewKF st K idxs) K ∧
      (processNewKF st K idxs).slot = st.slot ∧
      (processNewKF st K idxs).bad = st.bad ∧
      (∀ i ∈ idxs, DoneAt (processNewKF st K idxs) K i) ∧
      (∀ j, DoneAt st K j → DoneAt (processNewKF st K idxs) K j) := by
  induction idxs with
  | nil =>
    intro st h
    exact ⟨h, rfl, rfl, by simp, fun j hj => hj⟩
  | cons i rest ih =>
    intro st h
    have hstep := processSlot_step K st i h
    have hrec := ih (processSlot K st i) hstep.1
    have hfold : processNewKF st K (i :: rest) =
        processNewKF (processSlot K st i) K rest := rfl
    rw [hfold]
    refine ⟨hrec.1, ?_, ?_, ?_, ?_⟩
    · rw [hrec.2.1, hstep.2.1]
    · rw [hrec.2.2.1, hstep.2.2.1]
    · intro m hm
      rcases List.mem_cons.mp hm with rfl | hmem
      · exact hrec.2.2.2.2 m hstep.2.2.2.1
      · exact hrec.2.2.2.1 m hmem
    · intro j hj
      exact hrec.2.2.2.2 j (hstep.2.2.2.2 j hj)

/-- After the ProcessNewKeyFrame loop covers every occupied slot of the
arriving keyframe, full observation symmetry holds. -/
theorem processNewKF_symmetric (st : MapState) (K : Nat) (idxs : List Nat)
    (h : KFArrival st K)
    (hcov : ∀ i p, st.slot K i = some p → st.bad p = false → i ∈ idxs) :
    SymmetricState (processNewKF st K idxs) := by
  obtain ⟨hKF, hslot, hbad, hdone, -⟩ := processNewKF_fold K idxs st h
  constructor
  · exact hKF.1
  · intro k i p hs hb
    have hs0 : st.slot k i = some p := by
      rw [hslot] at hs
      exact hs
    have hb0 : st.bad p = false := by
      rw [hbad] at hb
      exact hb
    by_cases hk : k = K
    · subst hk
      exact hdone i (hcov i p hs0 hb0) p hs hb
    · exact hKF.2.1 k i p hk hs hb

/-- Claim C1: the Local Mapping mutations of the observation graph
preserve observation symmetry - a fresh point triangulated by
CreateNewMapPoints is registered on both sides (AddObservation and
AddMapPoint) in both keyframes and symmetry is preserved; the
ProcessNewKeyFrame association loop adds the point-side observation for
every keyframe-side-only association, restoring full symmetry for the
arriving keyframe. -/
theorem observation_symmetry_stages :
    (∀ st p k1 i1 k2 i2, SymmetricState st → FreshPoint st p → k1 ≠ k2 →
      st.slot k1 i1 = none → st.slot k2 i2 = none →
      SymmetricState (registerNewPoint st p k1 i1 k2 i2) ∧
      (registerNewPoint st p k1 i1 k2 i2).slot k1 i1 = some p ∧
      (registerNewPoint st p k1 i1 k2 i2).slot k2 i2 = some p ∧
      (registerNewPoint st p k1 i1 k2 i2).obs p k1 = some i1 ∧
      (registerNewPoint st p k1 i1 k2 i2).obs p k2 = some i2) ∧
    (∀ st K idxs, KFArrival st K →
      (∀ i p, st.slot K i = some p → st.bad p = false → i ∈ idxs) →
      SymmetricState (processNewKF st K idxs)) :=
  ⟨fun st p k1 i1 k2 i2 h1 h2 h3 h4 h5 =>
    registerNewPoint_symmetric st p k1 i1 k2 i2 h1 h2 h3 h4 h5,
   fun st K idxs h hcov => processNewKF_symmetric st K idxs h hcov⟩

/-- Witness for observation_symmetry_stages: registering point 0 at slot
0 of keyframes 0 and 1 in the empty graph installs both sides, and the
association loop on an empty keyframe yields a symmetric state. -/
theorem observation_symmetry_stages_witness :
    (registerNewPoint emptyMapState 0 0 0 1 0).slot 0 0 = some 0 ∧
    (registerNewPoint emptyMapState 0 0 0 1 0).slot 1 0 = some 0 ∧
    (registerNewPoint emptyMapState 0 0 0 1 0).obs 0 0 = some 0 ∧
    (registerNewPoint emptyMapState 0 0 0 1 0).obs 0 1 = some 0 ∧
    SymmetricState (processNewKF emptyMapState 3 []) := by
  have hA := observation_symmetry_stages.1 emptyMapState 0 0 0 1 0
    ⟨fun p k i _ ho => by simp [emptyMapState] at ho,
     fun k i p hs _ => by simp [emptyMapState] at hs⟩
    ⟨rfl, fun _ => rfl, fun k i => by simp [emptyMapState]⟩
    (by decide) rfl rfl
  have hB := observation_symmetry_stages.2 emptyMapState 3 []
    ⟨fun p k i _ ho => by simp [emptyMapState] at ho,
     fun k i p _ hs _ => by simp [emptyMapState] at hs,
     fun i p hs _ => by simp [emptyMapState] at hs,
     fun i j p hs1 _ _ => by simp [emptyMapState] at hs1⟩
    (fun i p hs _ => by simp [emptyMapState] at hs)
  exact ⟨hA.2.1, hA.2.2.1, hA.2.2.2.1, hA.2.2.2.2, hB⟩
